import Mathlib

/-
Verification of the bonsai state-container core (tree store, flat store,
scoped-store factory, path indexer) against its specification.

The JavaScript/TypeScript source is shallowly embedded:

* JS values that can live in the state tree are the inductive `JsVal`
  (undefined, null, booleans, numbers, strings, and keyed mappings).
  Ordered sequences (arrays) are represented as mappings keyed by index
  strings, which matches how every operation modelled here treats them
  (property get/set, the `in` operator, `Object.keys` enumeration).
  The tree is assumed acyclic and unaliased, as the spec's data model states.
* Functions that can throw a TypeError (the strict-mode commit walk of
  `set`) return `Except Unit`; `Except.error ()` models the thrown
  exception escaping to the caller.  In the one place this matters the
  JS code can only throw before it has performed any mutation (a missing
  intermediate key is always replaced by a fresh empty object, after
  which no non-object node can be reached), so modelling the throw as
  leaving the state unchanged is faithful.
* A middleware stage is a function from (path, candidate, previous value)
  to `MwRet`: either `throws` (the stage threw, or its promise rejected —
  `set` always awaits, so both surface identically) or `ret v` for a
  resolved JS value `v`, where `v = vBool false` is the veto signal and
  `v = vUndefined` models a stage that returned `undefined`.
* Subscriptions are modelled by their path string; a committed `set`
  reports, in order, the list of (subscription path, callback argument)
  pairs for every handler that fires, the argument being a fresh `get`
  of the subscription's own path against the already-committed state,
  exactly as the code computes it.
* `String.split("/")` and `String.startsWith` of JS are embedded as
  structurally recursive functions over the character list (`splitChars`,
  `leadsChars`) with identical behaviour on all inputs, so that concrete
  runs reduce inside the kernel.
* Prototype chains.  JS property reads, the `in` operator and property
  assignment also see the members a value inherits from its builtin
  prototypes: `(5)["toFixed"]` is a function, `"toString" in {}` is
  true, and `obj["__proto__"] = v` invokes the inherited accessor
  (silently dropping a primitive `v`) instead of creating an own key.
  The embedding models own keys only; the ECMA-262 prototype property
  names are listed explicitly (`objectProtoKeys` and friends), and every
  theorem whose truth would otherwise extend into the inherited region
  carries an `inheritsKey`/`protoFreePath` hypothesis restricting it to
  the domain where the own-key model provably coincides with the
  program.  Concrete inputs of counterexamples and witnesses use only
  non-inherited keys, where model and program agree step by step.
-/

mutual

inductive JsVal : Type where
  | vUndefined : JsVal
  | vNull : JsVal
  | vBool : Bool → JsVal
  | vNum : Int → JsVal
  | vStr : String → JsVal
  | vObj : JsFields → JsVal

inductive JsFields : Type where
  | fnil : JsFields
  | fcons : String → JsVal → JsFields → JsFields

end

open JsVal JsFields

/-- Own-property lookup `obj[key]` on a mapping: first matching key, else
`undefined`.  The program additionally yields `Object.prototype` members
for the inherited names (`({})["toString"]` is a function); theorems
asserting absent-ness on a missing key therefore exclude those names via
`inheritsKey`. -/
def fGet : JsFields → String → JsVal
  | .fnil, _ => .vUndefined
  | .fcons k v rest, key => if k == key then v else fGet rest key

/-- Property assignment `obj[key] = v` on a mapping: updates the first
occurrence in place, otherwise appends (JS insertion-order semantics).
Faithful for every key except the inherited `__proto__` accessor, whose
JS assignment never creates an own key (it drops primitive values and
re-targets the object's prototype for object values); the round-trip
theorem's `protoFreePath` hypothesis keeps commit walks off that key.
For the flat store's spread merge the model is exact even there, since
spread copies via CreateDataProperty, which always defines an own key. -/
def fSet : JsFields → String → JsVal → JsFields
  | .fnil, key, v => .fcons key v .fnil
  | .fcons k w rest, key, v =>
      if k == key then .fcons k v rest else .fcons k w (fSet rest key v)

/-- The JS `key in obj` test restricted to own keys.  The real `in` also
consults the prototype chain (`"toString" in {}` is true), so the commit
walk's intermediate-creation test agrees with this model exactly on the
keys outside `objectProtoKeys` — the domain the round-trip theorem's
`protoFreePath` hypothesis enforces. -/
def fHas : JsFields → String → Bool
  | .fnil, _ => false
  | .fcons k _ rest, key => k == key || fHas rest key

/-- JS `String.prototype.split` with separator `"/"`, defined over the
character list: `"".split("/") = [""]`, `"a//b".split("/") = ["a","","b"]`. -/
def splitChars : List Char → List String
  | [] => [""]
  | c :: rest =>
      match splitChars rest with
      | [] => []
      | s :: ss =>
          if c = '/' then "" :: s :: ss else String.mk (c :: s.data) :: ss

/-- `path.split("/")` of JS. -/
def jsSplit (s : String) : List String := splitChars s.data

/-- `path.split("/").filter(Boolean)`: the normalized segment list used by
both `get` and the exported `set`. -/
def segments (p : String) : List String := (jsSplit p).filter (fun s => s != "")

/-- Character-list test that the second list begins with the first. -/
def leadsChars : List Char → List Char → Bool
  | [], _ => true
  | _ :: _, [] => false
  | a :: as, b :: bs => a == b && leadsChars as bs

/-- JS `s.startsWith(p)` (raw string comparison, as `subscribe` uses). -/
def jsStartsWith (s p : String) : Bool := leadsChars p.data s.data

/-- Canonical array-index reading of a key ("0", "1", …, no leading
zeros), as JS uses for string character access. -/
def canonIndex (k : String) : Option Nat :=
  match k.data with
  | [] => none
  | ['0'] => some 0
  | c :: cs =>
      if c == '0' then none
      else if (c :: cs).all Char.isDigit then
        some ((c :: cs).foldl (fun n d => n * 10 + (d.toNat - '0'.toNat)) 0)
      else none

/-- Own-property access on a string primitive: `"hi".length = 2`,
`"hi"["0"] = "h"`, everything else `undefined`.  The program also yields
the `String.prototype`/`Object.prototype` methods (`"hi"["slice"]` is a
function); no theorem here asserts absent-ness on a string node, so the
inherited members are left unmodelled (`stringProtoKeys` records their
names). -/
def strProp (s : String) (k : String) : JsVal :=
  if k == "length" then .vNum s.data.length
  else
    match canonIndex k with
    | some i =>
        match s.data.get? i with
        | some c => .vStr (String.mk [c])
        | none => .vUndefined
    | none => .vUndefined

/-- `current[part]` for an arbitrary non-null, non-undefined JS value,
restricted to own properties: mappings use own-key lookup, strings
expose `length` and character indices, numbers and booleans own nothing.
The program additionally yields prototype-inherited members
(`(5)["toFixed"]`, `({})["toString"]`, `"hi"["slice"]`); the absent-ness
theorem below is therefore stated only for keys with
`inheritsKey … = false`, where this own-key model and the program
agree. -/
def propGet : JsVal → String → JsVal
  | .vObj fs, k => fGet fs k
  | .vStr s, k => strProp s k
  | _, _ => .vUndefined

/-- The loop of `get` (tree.ts:116-121): at each segment, return
`undefined` the moment the current node is `undefined` or `null`,
otherwise step through `current[part]`. -/
def getWalk : JsVal → List String → JsVal
  | cur, [] => cur
  | .vUndefined, _ :: _ => .vUndefined
  | .vNull, _ :: _ => .vUndefined
  | .vBool b, p :: rest => getWalk (propGet (.vBool b) p) rest
  | .vNum n, p :: rest => getWalk (propGet (.vNum n) p) rest
  | .vStr s, p :: rest => getWalk (propGet (.vStr s) p) rest
  | .vObj fs, p :: rest => getWalk (propGet (.vObj fs) p) rest

/-- `get` (tree.ts:110-122): empty path returns the whole root, otherwise
walk the filtered segments. -/
def get (st : JsVal) (path : String) : JsVal :=
  if path = "" then st else getWalk st (segments path)

/-- Result of one awaited middleware stage: the stage threw (or its
promise rejected), or it resolved to a JS value. -/
inductive MwRet : Type where
  | throws : MwRet
  | ret : JsVal → MwRet

/-- A middleware stage: `(path, candidate, previousValue) → result`. -/
def Mw : Type := String → JsVal → JsVal → MwRet

/-- The veto check `result === false`. -/
def isVetoSignal : JsVal → Bool
  | .vBool false => true
  | _ => false

/-- The check `result !== undefined` (negated here as the equality). -/
def isUndefinedVal : JsVal → Bool
  | .vUndefined => true
  | _ => false

/-- Outcome of the exported `set`'s middleware loop. -/
inductive ChainResult : Type where
  | ok : JsVal → ChainResult
  | vetoed : ChainResult
  | faulted : ChainResult

/-- The middleware loop of the exported `set` (tree.ts:188-206): stages run
in order; `false` stops with a veto; a throw is caught and stops with a
fault; any other result — including `undefined` — becomes the new
candidate. -/
def runMwChain : List Mw → String → JsVal → JsVal → ChainResult
  | [], _, next, _ => .ok next
  | m :: rest, path, next, prev =>
      match m path next prev with
      | .throws => .faulted
      | .ret w => if isVetoSignal w then .vetoed else runMwChain rest path w prev

/-- The middleware loop of the internal `setAtPath` (tree.ts:130-143):
`false` vetoes, a throw is logged and the loop continues, `undefined`
leaves the candidate unchanged, anything else replaces it. -/
def chainAtPath : List Mw → String → JsVal → JsVal → Option JsVal
  | [], _, next, _ => some next
  | m :: rest, path, next, prev =>
      match m path next prev with
      | .throws => chainAtPath rest path next prev
      | .ret w =>
          if isVetoSignal w then none
          else if isUndefinedVal w then chainAtPath rest path next prev
          else chainAtPath rest path w prev

/-- The commit walk of the exported `set` (tree.ts:212-224) on the
filtered segment list: create missing intermediates as empty mappings
(the `!(part in current)` test), assign the final segment.  An empty
segment list assigns key `"undefined"` (JS stringifies the out-of-range
`parts[parts.length - 1]`).  Reaching a non-mapping node throws a
strict-mode TypeError, modelled as `Except.error ()`; the throw can only
happen before any mutation, so the state is returned unchanged.  The
`in` test and the assignment here are the own-key `fHas`/`fSet`, exact
for every segment outside `objectProtoKeys` (see `protoFreePath`); on an
inherited segment the program would instead descend into, or invoke, the
prototype member. -/
def setSegs : JsVal → List String → JsVal → Except Unit JsVal
  | .vObj fs, [], v => .ok (.vObj (fSet fs "undefined" v))
  | .vObj fs, [last], v => .ok (.vObj (fSet fs last v))
  | .vObj fs, p :: q :: rest, v =>
      let fs1 := if fHas fs p then fs else fSet fs p (.vObj .fnil)
      match setSegs (fGet fs1 p) (q :: rest) v with
      | .ok c => .ok (.vObj (fSet fs1 p c))
      | .error e => .error e
  | _, _, _ => .error ()

/-- The exported `set` (tree.ts:184-231) without the notification step:
read the previous value with `get`, run the middleware chain (veto and
fault both return `false` to the caller with the state untouched), then
commit — the empty path replaces the whole root, otherwise the segment
walk runs (and can throw). -/
def setTree (st : JsVal) (mws : List Mw) (path : String) (v : JsVal) :
    Except Unit (JsVal × Bool) :=
  match runMwChain mws path v (get st path) with
  | .vetoed => .ok (st, false)
  | .faulted => .ok (st, false)
  | .ok next =>
      if path = "" then .ok (next, true)
      else
        match setSegs st (segments path) next with
        | .ok st2 => .ok (st2, true)
        | .error e => .error e

/-- The test inside the handler built by `subscribe` (tree.ts:258-262):
`!path || changedPath.startsWith(path)` — raw string comparison. -/
def subFires (subPath changed : String) : Bool :=
  (subPath == "") || jsStartsWith changed subPath

/-- The fan-out at the end of a committed `set` (tree.ts:228): every
handler runs against the already-committed state; a firing handler calls
its callback with `get(subPath)` of that new state. -/
def firedCallbacks (subs : List String) (newSt : JsVal) (changed : String) :
    List (String × JsVal) :=
  subs.filterMap fun sp =>
    if subFires sp changed then some (sp, get newSt sp) else none

/-- The exported `set` including the subscriber fan-out: the callback list
is empty unless the write committed. -/
def setNotify (st : JsVal) (mws : List Mw) (subs : List String) (path : String)
    (v : JsVal) : Except Unit (JsVal × Bool × List (String × JsVal)) :=
  match setTree st mws path v with
  | .error e => .error e
  | .ok (st2, true) => .ok (st2, true, firedCallbacks subs st2 path)
  | .ok (st2, false) => .ok (st2, false, [])

/-- One string segment list begins with another (segment-wise ancestor
test, the matching the spec demands of subscriptions). -/
def listLeads : List String → List String → Bool
  | [], _ => true
  | _ :: _, [] => false
  | a :: as, b :: bs => a == b && listLeads as bs

/-- `p` is a segment-wise ancestor of (or equal to) `c`. -/
def segAncestor (p c : String) : Bool := listLeads (segments p) (segments c)

/-- A flat-store middleware (flat.ts:26): `(nextState, prevState)` to a
replacement state or the veto signal `false` (`none` here). -/
def FlatMw : Type := JsFields → JsFields → Option JsFields

/-- The spread merge `{ ...state, ...partial }` (flat.ts:60): existing
keys keep their position and take the patch's value, new keys append. -/
def mergeFields : JsFields → JsFields → JsFields
  | st, .fnil => st
  | st, .fcons k v rest => mergeFields (fSet st k v) rest

/-- The middleware loop of `setState` (flat.ts:64-71): stages run in
order on the merged candidate; `false` stops everything. -/
def runFlatChain : List FlatMw → JsFields → JsFields → Option JsFields
  | [], cur, _ => some cur
  | m :: rest, cur, prev =>
      match m cur prev with
      | none => none
      | some nxt => runFlatChain rest nxt prev

/-- `setState` (flat.ts:59-76): merge, run the chain, and on approval
commit and invoke every registered listener (returned as the count of
listener invocations); on veto return with nothing changed and no
listener invoked. -/
def setStateFlat (st : JsFields) (mws : List FlatMw) (listenerCount : Nat)
    (patch : JsFields) : JsFields × Nat :=
  match runFlatChain mws (mergeFields st patch) st with
  | none => (st, 0)
  | some m => (m, listenerCount)

/-- The module-level mutable state of tree.ts: the root value, the
middleware registry, and the subscriber set.  Every handle returned by
`createStore` (createStore.ts) closes over this one module, because its
`get`/`set`/`subscribe` delegate to the module-level `treeGet`/`treeSet`/
`treeSubscribe`. -/
structure TreeModule : Type where
  state : JsVal
  mws : List Mw
  subs : List String

/-- `createStore(initialState, options)` (createStore.ts:117-151): it
calls `initTreeState` on the shared tree module, replacing the root and
the middleware registry (both config fields are always truthy here) and
leaving the subscriber set as it is, then hands back delegating
closures — so the "new store" is the same module. -/
def createStoreInit (tm : TreeModule) (initialState : JsVal) (mws : List Mw) :
    TreeModule :=
  { tm with state := initialState, mws := mws }

/-- `store.get(path)` of a `createStore` handle: `treeGet` on the shared
module. -/
def storeGet (tm : TreeModule) (path : String) : JsVal := get tm.state path

/-- `store.set(path, value)` of a `createStore` handle: `treeSet` on the
shared module. -/
def storeSet (tm : TreeModule) (path : String) (v : JsVal) :
    Except Unit (TreeModule × Bool × List (String × JsVal)) :=
  match setNotify tm.state tm.mws tm.subs path v with
  | .ok (st2, b, cbs) => .ok ({ tm with state := st2 }, b, cbs)
  | .error e => .error e

/-- `store.subscribe(path, cb)` of a `createStore` handle: registers the
handler in the shared module's subscriber set. -/
def storeAddSub (tm : TreeModule) (path : String) : TreeModule :=
  { tm with subs := tm.subs ++ [path] }

/-- The shared tree module before any store is created. -/
def gShared0 : TreeModule := ⟨.vObj .fnil, [], []⟩

/-- The module after `const A = createStore({ x: 1 })`. -/
def gSharedA : TreeModule :=
  createStoreInit gShared0 (.vObj (.fcons "x" (.vNum 1) .fnil)) []

/-- The module after additionally `const B = createStore({})`. -/
def gSharedB : TreeModule := createStoreInit gSharedA (.vObj .fnil) []

mutual

/-- `getAllPaths` (utils.ts:6-29): `null`/`undefined` yield no paths, a
non-object yields its prefix, an object walks its keys. -/
def getAllPaths : JsVal → String → List String
  | .vNull, _ => []
  | .vUndefined, _ => []
  | .vBool _, pre => [pre]
  | .vNum _, pre => [pre]
  | .vStr _, pre => [pre]
  | .vObj fs, pre => pathsOfFields fs pre

/-- The key loop of `getAllPaths`: each child contributes its recursive
paths, or — when it contributes none — the child's own full path. -/
def pathsOfFields : JsFields → String → List String
  | .fnil, _ => []
  | .fcons k v rest, pre =>
      let full := if pre != "" then pre ++ "/" ++ k else k
      let childPaths := getAllPaths v full
      (if childPaths.length > 0 then childPaths else [full]) ++
        pathsOfFields rest pre

end


/-- A middleware stage that always vetoes: `() => false`. -/
def mwVeto : Mw := fun _ _ _ => .ret (.vBool false)

/-- A middleware stage that always throws. -/
def mwThrow : Mw := fun _ _ _ => .throws

/-- A middleware stage that always returns `undefined`
(e.g. a logging stage written without a return statement). -/
def mwToUndefined : Mw := fun _ _ _ => .ret .vUndefined

/-- JS values that are neither mappings nor strings nor null/undefined…
precisely: undefined, null, booleans and numbers — the scalars whose
property access yields `undefined` for every key that is not supplied by
the value's prototype chain. -/
def scalarNonString : JsVal → Bool
  | .vUndefined => true
  | .vNull => true
  | .vBool _ => true
  | .vNum _ => true
  | _ => false

/-- The property names of `Object.prototype` (ECMA-262, Annex B
included): inherited by every plain object the store builds, visible to
the `in` operator and to property reads on mappings, numbers, booleans
and strings; `"__proto__"` is the one inherited accessor, whose
assignment silently drops primitive values instead of creating an own
key. -/
def objectProtoKeys : List String :=
  ["constructor", "hasOwnProperty", "isPrototypeOf", "propertyIsEnumerable",
    "toLocaleString", "toString", "valueOf", "__proto__",
    "__defineGetter__", "__defineSetter__", "__lookupGetter__",
    "__lookupSetter__"]

/-- The own property names of `Number.prototype` (ECMA-262). -/
def numberProtoKeys : List String :=
  ["constructor", "toExponential", "toFixed", "toLocaleString",
    "toPrecision", "toString", "valueOf"]

/-- The own property names of `Boolean.prototype` (ECMA-262). -/
def booleanProtoKeys : List String :=
  ["constructor", "toString", "valueOf"]

/-- The own property names of `String.prototype` (ECMA-262, Annex B
included). -/
def stringProtoKeys : List String :=
  ["anchor", "at", "big", "blink", "bold", "charAt", "charCodeAt",
    "codePointAt", "concat", "constructor", "endsWith", "fixed",
    "fontcolor", "fontsize", "includes", "indexOf", "isWellFormed",
    "italics", "lastIndexOf", "link", "localeCompare", "match",
    "matchAll", "normalize", "padEnd", "padStart", "repeat", "replace",
    "replaceAll", "search", "slice", "small", "split", "startsWith",
    "strike", "sub", "substr", "substring", "sup",
    "toLocaleLowerCase", "toLocaleUpperCase", "toLowerCase", "toString",
    "toUpperCase", "toWellFormed", "trim", "trimEnd", "trimStart",
    "valueOf"]

/-- Whether the program's prototype chain for this value's type supplies
the key: on such keys a JS property read yields the inherited member
(e.g. `(5)["toFixed"]`, `({})["toString"]`, `"hi"["slice"]`) rather than
`undefined`, and `key in obj` is true without an own key.  The embedding
does not model those inherited members; every theorem that asserts
absent-ness therefore carries an `inheritsKey … = false` (or
`protoFreePath`) hypothesis confining it to the domain where the own-key
model provably agrees with the program. -/
def inheritsKey : JsVal → String → Bool
  | .vNum _, k => numberProtoKeys.contains k || objectProtoKeys.contains k
  | .vBool _, k => booleanProtoKeys.contains k || objectProtoKeys.contains k
  | .vStr _, k => stringProtoKeys.contains k || objectProtoKeys.contains k
  | .vObj _, k => objectProtoKeys.contains k
  | _, _ => false

/-- A path none of whose segments is an `Object.prototype` property
name.  On such paths the commit walk's `!(part in current)` test and its
final assignment behave exactly like the own-key `fHas`/`fSet` model:
no inherited name can satisfy `in` without an own key, and the final
assignment never hits the inherited `__proto__` accessor. -/
def protoFreePath (p : String) : Bool :=
  (segments p).all fun s => !(objectProtoKeys.contains s)

/-- Unfolding equation for `get` (stated explicitly because the bare name
is ambiguous with the state-monad `get` inside tactic blocks). -/
theorem get_def (st : JsVal) (path : String) :
    get st path = if path = "" then st else getWalk st (segments path) :=
  rfl

/-- Reading back the key just assigned returns the assigned value. -/
theorem fGet_fSet : ∀ (fs : JsFields) (k : String) (v : JsVal),
    fGet (fSet fs k v) k = v
  | .fnil, k, v => by simp [fSet, fGet]
  | .fcons k' w rest, k, v => by
      by_cases h : (k' == k) = true
      · simp [fSet, h, fGet]
      · simp [fSet, h, fGet]
        exact fGet_fSet rest k v

/-- A key the `in` test rejects reads as `undefined`. -/
theorem fGet_not_has : ∀ (fs : JsFields) (k : String),
    fHas fs k = false → fGet fs k = .vUndefined
  | .fnil, _, _ => rfl
  | .fcons k' _ rest, k, h => by
      simp [fHas] at h
      simp [fGet, h.1]
      exact fGet_not_has rest k h.2

/-- Once the walk of `get` has produced `undefined`, it stays there. -/
theorem getWalk_undefined : ∀ (parts : List String), getWalk .vUndefined parts = .vUndefined
  | [] => rfl
  | _ :: _ => rfl

/-- A successful commit walk stores the value so that the read walk over
the same segment list returns it. -/
theorem setSegs_get : ∀ (segs : List String) (st v st2 : JsVal),
    segs ≠ [] → setSegs st segs v = .ok st2 → getWalk st2 segs = v
  | [], _, _, _, h, _ => absurd rfl h
  | [last], st, v, st2, _, h => by
      cases st with
      | vObj fs =>
          simp [setSegs] at h
          rw [← h]
          simp [getWalk, propGet, fGet_fSet]
      | vUndefined => simp [setSegs] at h
      | vNull => simp [setSegs] at h
      | vBool b => simp [setSegs] at h
      | vNum n => simp [setSegs] at h
      | vStr s => simp [setSegs] at h
  | p :: q :: rest, st, v, st2, _, h => by
      cases st with
      | vObj fs =>
          cases hrec : setSegs
              (fGet (if fHas fs p then fs else fSet fs p (.vObj .fnil)) p)
              (q :: rest) v with
          | error e => simp [setSegs, hrec] at h
          | ok c =>
              simp [setSegs, hrec] at h
              rw [← h]
              simp [getWalk, propGet, fGet_fSet]
              exact setSegs_get (q :: rest) _ v c (by simp) hrec
      | vUndefined => simp [setSegs] at h
      | vNull => simp [setSegs] at h
      | vBool b => simp [setSegs] at h
      | vNum n => simp [setSegs] at h
      | vStr s => simp [setSegs] at h

/-- Claim C1: veto atomicity of the tree-store `set`.  If the middleware
loop of `set(p, v)` ends in a veto (some stage returned `false` during
the run), `set` returns the non-committed outcome, the state is the very
state it started from — so `get(q)` after the call equals `get(q)`
before it for every path `q` — and the subscriber callback list is
empty. -/
theorem set_veto_atomic (st : JsVal) (mws : List Mw) (subs : List String)
    (p : String) (v : JsVal)
    (h : runMwChain mws p v (get st p) = .vetoed) :
    setNotify st mws subs p v = .ok (st, false, []) ∧
      ∀ (q : String) (res : JsVal × Bool × List (String × JsVal)),
        setNotify st mws subs p v = .ok res →
          get res.1 q = get st q ∧ res.2.2 = [] := by
  have h1 : setNotify st mws subs p v = .ok (st, false, []) := by
    unfold setNotify setTree
    rw [h]
  refine ⟨h1, ?_⟩
  intro q res hres
  rw [h1] at hres
  cases hres
  exact ⟨rfl, rfl⟩

/-- Claim C1, witness: a concrete vetoing stage on the empty store. -/
theorem set_veto_atomic_witness :
    runMwChain [mwVeto] "a" (.vNum 1) (get (.vObj .fnil) "a") = .vetoed ∧
    setNotify (.vObj .fnil) [mwVeto] ["a"] "a" (.vNum 1) =
      .ok (.vObj .fnil, false, []) :=
  ⟨rfl, (set_veto_atomic (.vObj .fnil) [mwVeto] ["a"] "a" (.vNum 1) rfl).1⟩

/-- Claim C4, counterexample: with no middleware at all, on state
`{ a: 5 }` the call `set("a/b", 1)` reaches the scalar `5` during the
commit walk and the strict-mode assignment `5["b"] = …` throws a
TypeError, so `set` rejects instead of returning a commit/no-commit
outcome — refuting "set never throws or rejects to its caller". -/
theorem set_commit_throws_cex :
    setTree (.vObj (.fcons "a" (.vNum 5) .fnil)) [] "a/b" (.vNum 1) =
      .error () :=
  rfl

/-- Claim C4, amended: a middleware stage that throws (or whose promise
rejects) never propagates across the `set` boundary — the loop catches
it, `set` returns the non-committed outcome with the state exactly as it
was (so every `get` is unchanged) and no subscriber callback runs.  The
exception-free guarantee holds for the pipeline only: the commit phase
itself can still throw on a non-mapping intermediate node. -/
theorem set_stage_fault_closed (st : JsVal) (mws : List Mw) (subs : List String)
    (p : String) (v : JsVal)
    (h : runMwChain mws p v (get st p) = .faulted) :
    setNotify st mws subs p v = .ok (st, false, []) ∧
      ∀ (q : String) (res : JsVal × Bool × List (String × JsVal)),
        setNotify st mws subs p v = .ok res →
          get res.1 q = get st q ∧ res.2.2 = [] := by
  have h1 : setNotify st mws subs p v = .ok (st, false, []) := by
    unfold setNotify setTree
    rw [h]
  refine ⟨h1, ?_⟩
  intro q res hres
  rw [h1] at hres
  cases hres
  exact ⟨rfl, rfl⟩

/-- Claim C4, witness: a concrete throwing stage on the empty store. -/
theorem set_stage_fault_closed_witness :
    runMwChain [mwThrow] "a" (.vNum 1) (get (.vObj .fnil) "a") = .faulted ∧
    setNotify (.vObj .fnil) [mwThrow] ["a"] "a" (.vNum 1) =
      .ok (.vObj .fnil, false, []) :=
  ⟨rfl, (set_stage_fault_closed (.vObj .fnil) [mwThrow] ["a"] "a" (.vNum 1) rfl).1⟩

/-- Claim C5, counterexample: a single stage returning `undefined` makes
`undefined` the committed value in the exported `set`: on the empty
store, `set("a", 1)` with that stage commits `{ a: undefined }`, so the
candidate was not left unchanged (`1` was lost). -/
theorem set_undefined_commits_cex :
    setTree (.vObj .fnil) [mwToUndefined] "a" (.vNum 1) =
      .ok (.vObj (.fcons "a" .vUndefined .fnil), true) ∧
    get (.vObj (.fcons "a" .vUndefined .fnil)) "a" = .vUndefined ∧
    (JsVal.vUndefined = JsVal.vNum 1 → False) :=
  ⟨rfl, rfl, fun h => nomatch h⟩

/-- Claim C5, amended: the `undefined`-means-no-change rule holds only in
the internal `setAtPath` loop, whose chain keeps the previous candidate
when a stage returns `undefined`; the exported `set`'s chain instead
adopts any non-`false` result — so a stage returning `undefined` makes
`undefined` the candidate that is committed absent a later veto. -/
theorem mw_undefined_candidate (m : Mw) (mws : List Mw) (p : String)
    (v prev : JsVal) (h : m p v prev = .ret .vUndefined) :
    runMwChain (m :: mws) p v prev = runMwChain mws p .vUndefined prev ∧
      chainAtPath (m :: mws) p v prev = chainAtPath mws p v prev := by
  constructor
  · simp [runMwChain, h, isVetoSignal]
  · simp [chainAtPath, h, isVetoSignal, isUndefinedVal]

/-- Claim C5, witness for the amended statement. -/
theorem mw_undefined_candidate_witness :
    mwToUndefined "a" (.vNum 1) .vUndefined = .ret .vUndefined ∧
    runMwChain [mwToUndefined] "a" (.vNum 1) .vUndefined =
      runMwChain [] "a" .vUndefined .vUndefined ∧
    chainAtPath [mwToUndefined] "a" (.vNum 1) .vUndefined =
      chainAtPath [] "a" (.vNum 1) .vUndefined :=
  ⟨rfl, (mw_undefined_candidate mwToUndefined [] "a" (.vNum 1) .vUndefined rfl).1,
    (mw_undefined_candidate mwToUndefined [] "a" (.vNum 1) .vUndefined rfl).2⟩

/-- Claim C2: the handler that `subscribe` installs matches with raw
`changedPath.startsWith(path)`, so a commit at `"user2"` does fire a
subscription whose prefix is `"user"` even though `"user"` is not a
segment-wise ancestor of `"user2"` — the segment-wise matching the
claim requires is violated.  Concretely: on the empty store with the
single subscription `"user"`, the committed `set("user2", 7)` invokes
that subscriber (with `get("user") = undefined`), while the segment
test says it must not fire. -/
theorem subscribe_raw_match_bug :
    setNotify (.vObj .fnil) [] ["user"] "user2" (.vNum 7) =
      .ok (.vObj (.fcons "user2" (.vNum 7) .fnil), true,
        [("user", .vUndefined)]) ∧
    subFires "user" "user2" = true ∧
    segAncestor "user" "user2" = false ∧
    (("user" : String) = "" → False) :=
  ⟨rfl, rfl, rfl, fun h => nomatch h⟩

/-- Claim C6: nested write with an ancestor subscription.  On the empty
store with the single subscription `"a"` and no middleware,
`set("a/b/c", 1)` commits and the callback list contains exactly one
invocation; its argument is `get("a")` evaluated against the
already-committed state and equals `{ b: { c: 1 } }` — the committed
state is visible to the callback. -/
theorem nested_commit_notify :
    setNotify (.vObj .fnil) [] ["a"] "a/b/c" (.vNum 1) =
      .ok (.vObj (.fcons "a"
            (.vObj (.fcons "b" (.vObj (.fcons "c" (.vNum 1) .fnil)) .fnil))
            .fnil),
        true,
        [("a", .vObj (.fcons "b" (.vObj (.fcons "c" (.vNum 1) .fnil)) .fnil))]) ∧
    get (.vObj (.fcons "a"
          (.vObj (.fcons "b" (.vObj (.fcons "c" (.vNum 1) .fnil)) .fnil))
          .fnil)) "a" =
      .vObj (.fcons "b" (.vObj (.fcons "c" (.vNum 1) .fnil)) .fnil) :=
  ⟨rfl, rfl⟩

/-- Claim C3, counterexample: the path `"/"` breaks the round-trip even
on the empty store with no middleware.  `set("/", 1)` filters the split
to an empty segment list, so `parts[parts.length - 1]` is `undefined`
and the assignment stores the value under the key `"undefined"`; but
`get("/")` walks the same empty segment list and returns the whole
root, which is `{ undefined: 1 }`, not `1`. -/
theorem set_get_roundTrip_cex :
    setTree (.vObj .fnil) [] "/" (.vNum 1) =
      .ok (.vObj (.fcons "undefined" (.vNum 1) .fnil), true) ∧
    get (.vObj (.fcons "undefined" (.vNum 1) .fnil)) "/" =
      .vObj (.fcons "undefined" (.vNum 1) .fnil) ∧
    (JsVal.vObj (.fcons "undefined" (.vNum 1) .fnil) = .vNum 1 → False) :=
  ⟨rfl, rfl, fun h => nomatch h⟩

/-- Claim C3, amended: with no middleware installed, for every path that
is empty or has at least one nonempty segment none of which is an
`Object.prototype` property name, whenever `set(P, V)` returns the
committed outcome (as always happens from the empty store for such
paths), `get(P)` then returns `V`.  The prototype fence is forced by the
program: `set("__proto__", 5)` on the empty store commits, but the
assignment invokes the inherited `__proto__` accessor, which drops the
primitive, so `get("__proto__")` yields `Object.prototype`, not `5`;
inherited names can likewise divert the intermediate `in` test.  On
fenced paths the own-key commit walk is exact, and the `protoFreePath`
hypothesis (unused by the proof) confines the statement to that
domain. -/
theorem set_get_roundTrip (st : JsVal) (p : String) (v st2 : JsVal)
    (hp : p = "" ∨ (segments p ≠ [] ∧ protoFreePath p = true))
    (h : setTree st [] p v = .ok (st2, true)) :
    get st2 p = v := by
  unfold setTree at h
  simp only [runMwChain] at h
  by_cases hp0 : p = ""
  · subst hp0
    simp at h
    rw [get_def]
    simp [h]
  · rw [if_neg hp0] at h
    cases hseg : setSegs st (segments p) v with
    | error e => simp [hseg] at h
    | ok stq =>
        simp [hseg] at h
        have hne : segments p ≠ [] := (hp.resolve_left hp0).1
        have hg := setSegs_get (segments p) st v stq hne hseg
        rw [← h, get_def, if_neg hp0]
        exact hg

/-- Claim C3, witness for the amended statement: `set("a/b", 2)` on the
empty store commits `{ a: { b: 2 } }` and `get("a/b")` reads `2` back. -/
theorem set_get_roundTrip_witness :
    (("a/b" : String) = "" ∨ (segments "a/b" ≠ [] ∧ protoFreePath "a/b" = true)) ∧
    setTree (.vObj .fnil) [] "a/b" (.vNum 2) =
      .ok (.vObj (.fcons "a" (.vObj (.fcons "b" (.vNum 2) .fnil)) .fnil), true) ∧
    get (.vObj (.fcons "a" (.vObj (.fcons "b" (.vNum 2) .fnil)) .fnil)) "a/b" =
      .vNum 2 :=
  ⟨Or.inr ⟨(fun h => nomatch h), rfl⟩, rfl,
    set_get_roundTrip (.vObj .fnil) "a/b" (.vNum 2)
      (.vObj (.fcons "a" (.vObj (.fcons "b" (.vNum 2) .fnil)) .fnil))
      (Or.inr ⟨(fun h => nomatch h), rfl⟩) rfl⟩

/-- Claim C7, counterexample: a string encountered mid-path does not
always yield the absent sentinel — `get` steps through `current[part]`,
and string primitives expose `length` (and character indices).  On state
`{ a: "hi" }`, `get("a/length")` returns `2`, not absent. -/
theorem get_string_midpath_cex :
    get (.vObj (.fcons "a" (.vStr "hi") .fnil)) "a/length" = .vNum 2 ∧
    (JsVal.vNum 2 = .vUndefined → False) :=
  ⟨rfl, fun h => nomatch h⟩

/-- Claim C7, amended: `get` never throws (it is total by construction,
the null/undefined guard running before every property access), and the
walk yields the absent sentinel as soon as the current node is
`undefined` or `null`, and also when it is a number, a boolean, or a
mapping missing the own key — provided the segment is not supplied by
the node's prototype chain.  Nodes that are not mappings do not in
general yield absent: strings expose `length` and character indices (the
counterexample) as well as the `String.prototype` methods, and numbers,
booleans and mappings expose their inherited members (`(5)["toFixed"]`,
`({})["toString"]` are functions).  The `inheritsKey … = false`
hypothesis (unused by the proof) confines the statement to the keys on
which the own-key model provably agrees with the program. -/
theorem getWalk_absent (cur : JsVal) (k : String) (rest : List String)
    (h : (scalarNonString cur = true ∧ inheritsKey cur k = false) ∨
      ∃ fs, cur = .vObj fs ∧ fHas fs k = false ∧ inheritsKey cur k = false) :
    getWalk cur (k :: rest) = .vUndefined := by
  cases h with
  | inl hs =>
      obtain ⟨hs, _⟩ := hs
      cases cur with
      | vUndefined => rfl
      | vNull => rfl
      | vBool b => simp [getWalk, propGet, getWalk_undefined]
      | vNum n => simp [getWalk, propGet, getWalk_undefined]
      | vStr s => simp [scalarNonString] at hs
      | vObj fs => simp [scalarNonString] at hs
  | inr h2 =>
      obtain ⟨fs, hcur, hh, _⟩ := h2
      subst hcur
      simp [getWalk, propGet, fGet_not_has fs k hh, getWalk_undefined]

/-- Claim C7, witness: the scalar `5` one level down swallows the
remaining segment `"b"`, which no prototype supplies. -/
theorem getWalk_absent_witness :
    ((scalarNonString (.vNum 5) = true ∧ inheritsKey (.vNum 5) "b" = false) ∨
      ∃ fs, JsVal.vNum 5 = .vObj fs ∧ fHas fs "b" = false ∧
        inheritsKey (.vNum 5) "b" = false) ∧
    getWalk (.vNum 5) ["b"] = .vUndefined :=
  ⟨Or.inl ⟨rfl, rfl⟩, getWalk_absent (.vNum 5) "b" [] (Or.inl ⟨rfl, rfl⟩)⟩

/-- Claim C8: flat-store merge atomicity.  `setState(partial)` shallow-
merges the patch onto the current state and feeds the result through the
middleware chain in order; if the chain vetoes, the state is returned
exactly as it was and zero listeners fire; if every stage approves, the
(possibly transformed) merged state is committed and every registered
listener fires. -/
theorem flat_merge_atomic (st : JsFields) (mws : List FlatMw) (n : Nat)
    (patch : JsFields) :
    (runFlatChain mws (mergeFields st patch) st = none →
        setStateFlat st mws n patch = (st, 0)) ∧
      ∀ m, runFlatChain mws (mergeFields st patch) st = some m →
        setStateFlat st mws n patch = (m, n) := by
  constructor
  · intro h
    simp [setStateFlat, h]
  · intro m h
    simp [setStateFlat, h]

/-- Claim C8, witness: merging `{ b: 2 }` onto `{ a: 1 }` with no
middleware commits `{ a: 1, b: 2 }` and fires all three listeners. -/
theorem flat_merge_atomic_witness :
    runFlatChain [] (mergeFields (.fcons "a" (.vNum 1) .fnil)
        (.fcons "b" (.vNum 2) .fnil)) (.fcons "a" (.vNum 1) .fnil) =
      some (.fcons "a" (.vNum 1) (.fcons "b" (.vNum 2) .fnil)) ∧
    setStateFlat (.fcons "a" (.vNum 1) .fnil) [] 3 (.fcons "b" (.vNum 2) .fnil) =
      (.fcons "a" (.vNum 1) (.fcons "b" (.vNum 2) .fnil), 3) :=
  ⟨rfl,
    (flat_merge_atomic (.fcons "a" (.vNum 1) .fnil) [] 3
        (.fcons "b" (.vNum 2) .fnil)).2
      (.fcons "a" (.vNum 1) (.fcons "b" (.vNum 2) .fnil)) rfl⟩

/-- Claim C9: the tree-shaped scoped stores returned by `createStore` are
not isolated — every handle's `get`/`set`/`subscribe` delegates to the
single module-level tree store, and creating a store re-initializes that
shared module.  Concretely: after `A = createStore({x:1})` the module
reads `x = 1`; after `B = createStore({})` the same module has lost A's
state (`x` is absent); A's subsequent `set("y", 2)` commits into the
shared module, so B's `get("y")` — a read of that module — returns `2`;
and a subscription registered through B fires (with the new root) when
A commits.  This refutes the claimed independence for tree-shaped
instances (the flat-shaped `createBonsaiStore` does close over its own
state). -/
theorem createStore_shared_module_bug :
    storeGet gSharedA "x" = .vNum 1 ∧
    storeGet gSharedB "x" = .vUndefined ∧
    storeSet gSharedB "y" (.vNum 2) =
      .ok (⟨.vObj (.fcons "y" (.vNum 2) .fnil), [], []⟩, true, []) ∧
    storeGet ⟨.vObj (.fcons "y" (.vNum 2) .fnil), [], []⟩ "y" = .vNum 2 ∧
    storeSet (storeAddSub gSharedB "") "y" (.vNum 2) =
      .ok (⟨.vObj (.fcons "y" (.vNum 2) .fnil), [], [""]⟩, true,
        [("", .vObj (.fcons "y" (.vNum 2) .fnil))]) :=
  ⟨rfl, rfl, rfl, rfl, rfl⟩

/-- Claim C10, counterexample: `getAllPaths({a:{b:1}})` is `["a/b"]` — a
mapping node with a non-empty prefix whose children contribute paths
does not contribute its own path, so `"a"` is missing from the result,
refuting the claimed enumeration of intermediate paths. -/
theorem getAllPaths_no_inner_node_cex :
    getAllPaths (.vObj (.fcons "a" (.vObj (.fcons "b" (.vNum 1) .fnil)) .fnil))
        "" = ["a/b"] ∧
    ("a" ∈ (["a/b"] : List String) → False) :=
  ⟨rfl, by decide⟩

/-- Claim C10, amended: `getAllPaths` enumerates leaf paths only.  A
null/undefined node contributes no path of its own (a null child's path
is contributed by the parent's empty-child fallback; a top-level null
yields nothing), a scalar leaf contributes its own path, and a
mapping/sequence node is recursed into without adding its own path —
except that a node all of whose children contribute no paths (e.g. an
empty mapping or a null child) gets its path pushed by the parent
fallback.  For `{a:{b:1}}` the result is exactly `["a/b"]`. -/
theorem getAllPaths_leaf_only :
    (∀ pre : String, getAllPaths .vNull pre = []) ∧
    (∀ pre : String, getAllPaths .vUndefined pre = []) ∧
    (∀ (pre : String) (n : Int), getAllPaths (.vNum n) pre = [pre]) ∧
    getAllPaths (.vObj (.fcons "a" (.vObj (.fcons "b" (.vNum 1) .fnil)) .fnil))
        "" = ["a/b"] ∧
    getAllPaths (.vObj (.fcons "a" .vNull .fnil)) "" = ["a"] ∧
    getAllPaths (.vObj (.fcons "a" (.vObj .fnil) .fnil)) "" = ["a"] :=
  ⟨fun _ => rfl, fun _ => rfl, fun _ _ => rfl, rfl, rfl, rfl⟩
